import Mathlib

/-!
Verification of `src/rust/src/schema.rs` from delta-io/delta.rs.

The development shallowly embeds the schema data model (`SchemaDataType`,
`SchemaTypeStruct`, `SchemaTypeArray`, `SchemaTypeMap`, `SchemaField`,
`Schema`), the serde-untagged JSON codec for `SchemaDataType`, and the
`DeltaLogSchemaFactory` (its template field lists and
`delta_log_schema_for_table`).
-/

namespace DeltaRs

/-- A model of the JSON values the schema codec needs: strings, booleans,
objects (ordered key/value lists, as serde sees them) and arrays. -/
inductive Json where
  | str (s : String)
  | bool (b : Bool)
  | obj (kvs : List (String × Json))
  | arr (xs : List Json)

mutual
/-- Embeds the Rust enum `SchemaDataType` (serde-untagged, variants tried in
declaration order: primitive, struct, array, map). -/
inductive SchemaDataType where
  | primitive (s : String)
  | struct (s : SchemaTypeStruct)
  | array (a : SchemaTypeArray)
  | map (m : SchemaTypeMap)

/-- Embeds the Rust struct `SchemaTypeStruct` with its `r#type` string and
field list. -/
inductive SchemaTypeStruct where
  | mk (type : String) (fields : List SchemaField)

/-- Embeds the Rust struct `SchemaTypeArray`. -/
inductive SchemaTypeArray where
  | mk (type : String) (elementType : SchemaDataType) (containsNull : Bool)

/-- Embeds the Rust struct `SchemaTypeMap`. -/
inductive SchemaTypeMap where
  | mk (type : String) (keyType : SchemaDataType) (valueType : SchemaDataType)
      (valueContainsNull : Bool)

/-- Embeds the Rust struct `SchemaField`; `metadata` (a
`HashMap<String, String>` in Rust) is modelled as an association list. -/
inductive SchemaField where
  | mk (name : String) (type : SchemaDataType) (nullable : Bool)
      (metadata : List (String × String))
end

/-- Embeds the Rust top-level `Schema` struct. -/
structure Schema where
  type : String
  fields : List SchemaField

def SchemaTypeStruct.type : SchemaTypeStruct → String
  | .mk t _ => t

def SchemaTypeStruct.fields : SchemaTypeStruct → List SchemaField
  | .mk _ fs => fs

def SchemaField.name : SchemaField → String
  | .mk n _ _ _ => n

def SchemaField.type : SchemaField → SchemaDataType
  | .mk _ t _ _ => t

def SchemaField.nullable : SchemaField → Bool
  | .mk _ _ b _ => b

def SchemaField.metadata : SchemaField → List (String × String)
  | .mk _ _ _ m => m

@[simp] theorem SchemaField.name_mk (n : String) (t : SchemaDataType) (b : Bool)
    (m : List (String × String)) : (SchemaField.mk n t b m).name = n := rfl

@[simp] theorem SchemaField.type_mk (n : String) (t : SchemaDataType) (b : Bool)
    (m : List (String × String)) : (SchemaField.mk n t b m).type = t := rfl

@[simp] theorem SchemaField.nullable_mk (n : String) (t : SchemaDataType) (b : Bool)
    (m : List (String × String)) : (SchemaField.mk n t b m).nullable = b := rfl

@[simp] theorem SchemaField.metadata_mk (n : String) (t : SchemaDataType) (b : Bool)
    (m : List (String × String)) : (SchemaField.mk n t b m).metadata = m := rfl

/-! ### The serde JSON codec for `SchemaDataType`

Serialization follows the serde derive: a `primitive` is the bare string, the
other variants are objects listing each Rust struct field in declaration
order.  Deserialization of the untagged enum tries the variants in declaration
order and picks the first whose deserialization succeeds; a derived struct
deserializer requires all of its declared keys (with values of the declared
shapes) and ignores unknown keys. -/

mutual
def encodeType : SchemaDataType → Json
  | .primitive s => .str s
  | .struct (.mk ty fs) =>
      .obj [("type", .str ty), ("fields", .arr (encodeFields fs))]
  | .array (.mk ty et cn) =>
      .obj [("type", .str ty), ("elementType", encodeType et),
            ("containsNull", .bool cn)]
  | .map (.mk ty kt vt vcn) =>
      .obj [("type", .str ty), ("keyType", encodeType kt),
            ("valueType", encodeType vt), ("valueContainsNull", .bool vcn)]

def encodeField : SchemaField → Json
  | .mk n t nu md =>
      .obj [("name", .str n), ("type", encodeType t), ("nullable", .bool nu),
            ("metadata", .obj (md.map fun p => (p.1, .str p.2)))]

def encodeFields : List SchemaField → List Json
  | [] => []
  | f :: fs => encodeField f :: encodeFields fs
end

/-- Key lookup in a JSON object, as serde's map access sees the first
occurrence of a key. -/
def jlookup : List (String × Json) → String → Option Json
  | [], _ => none
  | (k, v) :: rest, key => if k == key then some v else jlookup rest key

theorem jlookup_mem {kvs : List (String × Json)} {key : String} {v : Json}
    (h : jlookup kvs key = some v) : (∃ k, (k, v) ∈ kvs) := by
  induction kvs with
  | nil => simp [jlookup] at h
  | cons p rest ih =>
    obtain ⟨k', v'⟩ := p
    by_cases hk : (k' == key) = true
    · simp [jlookup, hk] at h
      exact ⟨k', by simp [h]⟩
    · simp [jlookup, hk] at h
      obtain ⟨k, hkv⟩ := ih h
      exact ⟨k, by simp [hkv]⟩

theorem jlookup_sizeOf {kvs : List (String × Json)} {key : String} {v : Json}
    (h : jlookup kvs key = some v) : sizeOf v < sizeOf kvs := by
  obtain ⟨k, hmem⟩ := jlookup_mem h
  have hlt := List.sizeOf_lt_of_mem hmem
  have : sizeOf v < sizeOf (k, v) := by
    simp only [Prod.mk.sizeOf_spec]
    omega
  omega

/-- Decoding of the metadata map: a JSON object all of whose values are
strings. -/
def decodeMetaPairs : List (String × Json) → Option (List (String × String))
  | [] => some []
  | (k, .str v) :: rest => (decodeMetaPairs rest).map (fun r => (k, v) :: r)
  | _ => none

def decodeMeta : Json → Option (List (String × String))
  | .obj kvs => decodeMetaPairs kvs
  | _ => none

mutual
/-- Decoding of the untagged `SchemaDataType`: a JSON string is a primitive;
for an object the struct, array and map variants are tried in order, the
first whose declared keys are all present with decodable values wins. -/
def decodeType (j : Json) : Option SchemaDataType :=
  match j with
  | .str s => some (.primitive s)
  | .obj kvs =>
      match decodeStructVariant kvs with
      | some v => some v
      | none =>
          match decodeArrayVariant kvs with
          | some v => some v
          | none => decodeMapVariant kvs
  | _ => none
termination_by sizeOf j
decreasing_by all_goals (simp_wf; try omega)

def decodeStructVariant (kvs : List (String × Json)) : Option SchemaDataType :=
  match jlookup kvs "type" with
  | some (.str ty) =>
      match h : jlookup kvs "fields" with
      | some (.arr js) =>
          (decodeFieldList js).map (fun fs => .struct (.mk ty fs))
      | _ => none
  | _ => none
termination_by sizeOf kvs
decreasing_by
  simp_wf
  have := jlookup_sizeOf h
  simp only [Json.arr.sizeOf_spec] at this
  omega

def decodeArrayVariant (kvs : List (String × Json)) : Option SchemaDataType :=
  match jlookup kvs "type" with
  | some (.str ty) =>
      match h : jlookup kvs "elementType" with
      | some et =>
          match jlookup kvs "containsNull" with
          | some (.bool cn) =>
              (decodeType et).map (fun e => .array (.mk ty e cn))
          | _ => none
      | _ => none
  | _ => none
termination_by sizeOf kvs
decreasing_by
  simp_wf
  have := jlookup_sizeOf h
  omega

def decodeMapVariant (kvs : List (String × Json)) : Option SchemaDataType :=
  match jlookup kvs "type" with
  | some (.str ty) =>
      match h1 : jlookup kvs "keyType" with
      | some kt =>
          match h2 : jlookup kvs "valueType" with
          | some vt =>
              match jlookup kvs "valueContainsNull" with
              | some (.bool vcn) =>
                  match decodeType kt, decodeType vt with
                  | some k, some v => some (.map (.mk ty k v vcn))
                  | _, _ => none
              | _ => none
          | _ => none
      | _ => none
  | _ => none
termination_by sizeOf kvs
decreasing_by
  · simp_wf
    have := jlookup_sizeOf h1
    omega
  · simp_wf
    have := jlookup_sizeOf h2
    omega

def decodeField (j : Json) : Option SchemaField :=
  match j with
  | .obj kvs =>
      match jlookup kvs "name" with
      | some (.str n) =>
          match h : jlookup kvs "type" with
          | some tj =>
              match jlookup kvs "nullable" with
              | some (.bool nu) =>
                  match jlookup kvs "metadata" with
                  | some mj =>
                      match decodeType tj, decodeMeta mj with
                      | some t, some md => some (.mk n t nu md)
                      | _, _ => none
                  | _ => none
              | _ => none
          | _ => none
      | _ => none
  | _ => none
termination_by sizeOf j
decreasing_by
  simp_wf
  have := jlookup_sizeOf h
  omega

def decodeFieldList (js : List Json) : Option (List SchemaField) :=
  match js with
  | [] => some []
  | j :: rest =>
      match decodeField j, decodeFieldList rest with
      | some f, some fs => some (f :: fs)
      | _, _ => none
termination_by sizeOf js
decreasing_by all_goals (simp_wf; try omega)
end

theorem decodeMetaPairs_encode (md : List (String × String)) :
    decodeMetaPairs (md.map fun p => (p.1, Json.str p.2)) = some md := by
  induction md with
  | nil => rfl
  | cons p rest ih =>
    obtain ⟨k, v⟩ := p
    simp [decodeMetaPairs, ih]

mutual
theorem decodeType_encodeType : ∀ x : SchemaDataType, decodeType (encodeType x) = some x
  | .primitive s => by simp [encodeType, decodeType]
  | .struct (.mk ty fs) => by
      have ih := decodeFieldList_encodeFields fs
      simp [encodeType, decodeType, decodeStructVariant, jlookup, ih]
  | .array (.mk ty et cn) => by
      have ih := decodeType_encodeType et
      simp [encodeType, decodeType, decodeStructVariant, decodeArrayVariant, jlookup, ih]
  | .map (.mk ty kt vt vcn) => by
      have ih1 := decodeType_encodeType kt
      have ih2 := decodeType_encodeType vt
      simp [encodeType, decodeType, decodeStructVariant, decodeArrayVariant,
            decodeMapVariant, jlookup, ih1, ih2]

theorem decodeField_encodeField : ∀ f : SchemaField, decodeField (encodeField f) = some f
  | .mk n t nu md => by
      have ih := decodeType_encodeType t
      simp [encodeField, decodeField, jlookup, ih, decodeMeta, decodeMetaPairs_encode]

theorem decodeFieldList_encodeFields :
    ∀ fs : List SchemaField, decodeFieldList (encodeFields fs) = some fs
  | [] => by simp [encodeFields, decodeFieldList]
  | f :: fs => by
      have ih1 := decodeField_encodeField f
      have ih2 := decodeFieldList_encodeFields fs
      simp [encodeFields, decodeFieldList, ih1, ih2]
end

/-! ### The `DeltaLogSchemaFactory` template library

The five field lists below transcribe the JSON literals parsed in
`DeltaLogSchemaFactory::new` (the `map<string,string>` fields are commented
out in the source and therefore absent here as well). -/

def meta_data_fields : List SchemaField :=
  [.mk "id" (.primitive "string") true [],
   .mk "name" (.primitive "string") true [],
   .mk "description" (.primitive "string") true [],
   .mk "schemaString" (.primitive "string") true [],
   .mk "createdTime" (.primitive "long") true [],
   .mk "partitionColumns" (.array (.mk "array" (.primitive "string") true)) true [],
   .mk "format" (.struct (.mk "struct" [.mk "provider" (.primitive "string") true []])) true []]

def protocol_fields : List SchemaField :=
  [.mk "minReaderVersion" (.primitive "integer") true [],
   .mk "minWriterVersion" (.primitive "integer") true []]

def txn_fields : List SchemaField :=
  [.mk "appId" (.primitive "string") true [],
   .mk "version" (.primitive "long") true []]

def add_fields : List SchemaField :=
  [.mk "path" (.primitive "string") true [],
   .mk "size" (.primitive "long") true [],
   .mk "modificationTime" (.primitive "long") true [],
   .mk "dataChange" (.primitive "boolean") true [],
   .mk "stats" (.primitive "string") true []]

def remove_fields : List SchemaField :=
  [.mk "path" (.primitive "string") true [],
   .mk "size" (.primitive "long") true [],
   .mk "modificationTime" (.primitive "long") true [],
   .mk "dataChange" (.primitive "boolean") true [],
   .mk "stats" (.primitive "string") true []]

/-- The factory's `common_fields` map.  In Rust this is a `HashMap` whose
iteration order is unspecified; the model fixes insertion order.  All claims
below about the envelope's contents are order-insensitive per record. -/
def common_fields : List (String × List SchemaField) :=
  [("metaData", meta_data_fields),
   ("protocol", protocol_fields),
   ("txn", txn_fields),
   ("add", add_fields),
   ("remove", remove_fields)]

/-- Embeds `DeltaLogSchemaError` (payloads reduced to a message string; the
claims only concern which constructor, if any, is produced). -/
inductive DeltaLogSchemaError where
  | ParquetError (msg : String)
  | ArrowError (msg : String)
  | JSONSerialization (msg : String)

/-- Embeds `DeltaLogSchemaFactory::delta_log_schema_for_table`: partition the
table fields by membership of their name in `partition_columns`, then map the
template entries, augmenting the `add` record. -/
def delta_log_schema_for_table (table_schema : Schema)
    (partition_columns : List String) : Schema :=
  let pnp := table_schema.fields.partition
    (fun field => partition_columns.contains field.name)
  let partition_fields := pnp.1
  let non_partition_fields := pnp.2
  let fields := common_fields.map (fun nf =>
    if nf.1 == "add" then
      let fields1 :=
        if !partition_fields.isEmpty then
          nf.2 ++ [SchemaField.mk "partitionValues_parsed"
            (.struct (.mk "struct" partition_fields)) true []]
        else nf.2
      let fields2 :=
        if !non_partition_fields.isEmpty then
          fields1 ++ [SchemaField.mk "stats_parsed"
            (.struct (.mk "struct"
              [.mk "minValues" (.struct (.mk "struct" non_partition_fields)) true [],
               .mk "maxValues" (.struct (.mk "struct" non_partition_fields)) true [],
               .mk "nullCounts" (.struct (.mk "struct" non_partition_fields)) true []]))
            true []]
        else fields1
      SchemaField.mk nf.1 (.struct (.mk "struct" fields2)) true []
    else
      SchemaField.mk nf.1 (.struct (.mk "struct" nf.2)) true [])
  Schema.mk "struct" fields

/-- The Rust function returns `Result<Schema, DeltaLogSchemaError>`; its body
has no error path and ends in `Ok(..)`. -/
def delta_log_schema_for_table_result (table_schema : Schema)
    (partition_columns : List String) : Except DeltaLogSchemaError Schema :=
  Except.ok (delta_log_schema_for_table table_schema partition_columns)

/-! ### Helpers for reading the produced envelope -/

/-- First field with the given name, as a reader of the output schema. -/
def findField (fs : List SchemaField) (n : String) : Option SchemaField :=
  fs.find? (fun f => f.name == n)

/-- The field list of a struct-typed node, `none` on any other node. -/
def structFields : SchemaDataType → Option (List SchemaField)
  | .struct (.mk _ fs) => some fs
  | _ => none

/-- The inner field list of the envelope record with the given name. -/
def recordFields (out : Schema) (n : String) : Option (List SchemaField) :=
  (findField out.fields n).bind (fun f => structFields f.type)

/-- The subsequence of the table's fields whose names appear in
`partition_columns`. -/
def partitionSubset (table_schema : Schema) (partition_columns : List String) :
    List SchemaField :=
  table_schema.fields.filter (fun f => partition_columns.contains f.name)

/-- The subsequence of the table's fields whose names do not appear in
`partition_columns`. -/
def nonPartitionSubset (table_schema : Schema) (partition_columns : List String) :
    List SchemaField :=
  table_schema.fields.filter (fun f => !partition_columns.contains f.name)

/-- The `partitionValues_parsed` field the factory appends to `add`. -/
def pvParsedField (s : Schema) (pc : List String) : SchemaField :=
  .mk "partitionValues_parsed" (.struct (.mk "struct" (partitionSubset s pc))) true []

/-- The `stats_parsed` field the factory appends to `add`. -/
def statsParsedField (s : Schema) (pc : List String) : SchemaField :=
  .mk "stats_parsed" (.struct (.mk "struct"
    [.mk "minValues" (.struct (.mk "struct" (nonPartitionSubset s pc))) true [],
     .mk "maxValues" (.struct (.mk "struct" (nonPartitionSubset s pc))) true [],
     .mk "nullCounts" (.struct (.mk "struct" (nonPartitionSubset s pc))) true []])) true []

/-- Characterization of the `add` record produced by the factory: the
template list, then `partitionValues_parsed` when the partition subset is
non-empty, then `stats_parsed` when the non-partition subset is non-empty. -/
theorem recordFields_add (s : Schema) (pc : List String) :
    recordFields (delta_log_schema_for_table s pc) "add" =
      some (add_fields
        ++ (if (partitionSubset s pc).isEmpty then [] else [pvParsedField s pc])
        ++ (if (nonPartitionSubset s pc).isEmpty then [] else [statsParsedField s pc])) := by
  have h0 : recordFields (delta_log_schema_for_table s pc) "add" =
      some (
        let pf := (s.fields.partition fun field => pc.contains field.name).1
        let nf := (s.fields.partition fun field => pc.contains field.name).2
        let fields1 :=
          if !pf.isEmpty then
            add_fields ++ [SchemaField.mk "partitionValues_parsed"
              (.struct (.mk "struct" pf)) true []]
          else add_fields
        if !nf.isEmpty then
          fields1 ++ [SchemaField.mk "stats_parsed" (.struct (.mk "struct"
            [.mk "minValues" (.struct (.mk "struct" nf)) true [],
             .mk "maxValues" (.struct (.mk "struct" nf)) true [],
             .mk "nullCounts" (.struct (.mk "struct" nf)) true []])) true []]
        else fields1) := rfl
  rw [h0]
  simp only [List.partition_eq_filter_filter, Function.comp, partitionSubset,
             nonPartitionSubset, pvParsedField, statsParsedField]
  cases hp : (List.filter (fun f => pc.contains f.name) s.fields).isEmpty <;>
    cases hn : (List.filter (fun f => !pc.contains f.name) s.fields).isEmpty <;>
      · simp at hp hn
        simp [hp, hn, Function.comp_def]
        try exact hp
        try exact hn

theorem recordFields_metaData (s : Schema) (pc : List String) :
    recordFields (delta_log_schema_for_table s pc) "metaData" = some meta_data_fields := rfl

theorem recordFields_protocol (s : Schema) (pc : List String) :
    recordFields (delta_log_schema_for_table s pc) "protocol" = some protocol_fields := rfl

theorem recordFields_txn (s : Schema) (pc : List String) :
    recordFields (delta_log_schema_for_table s pc) "txn" = some txn_fields := rfl

theorem recordFields_remove (s : Schema) (pc : List String) :
    recordFields (delta_log_schema_for_table s pc) "remove" = some remove_fields := rfl

/-- The table schema used by the repository's own test
(`delta_log_schema_factory_creates_schema`). -/
def testSchema : Schema :=
  Schema.mk "struct"
    [.mk "pcol" (.primitive "integer") true [],
     .mk "col1" (.primitive "integer") true []]

/-! ### Claim theorems -/

/-- C1: for every `SchemaDataType` value (primitive, struct, array or map,
arbitrarily nested), decoding the JSON produced by encoding it yields the
value back: `decode(encode(x)) == x`. -/
theorem schema_data_type_roundtrip (x : SchemaDataType) :
    decodeType (encodeType x) = some x :=
  decodeType_encodeType x

/-- C2: for every table schema and partition-column list, the envelope built
by `delta_log_schema_for_table` has exactly the five top-level fields
`metaData`, `protocol`, `txn`, `add`, `remove`, each a nullable struct with
empty metadata. -/
theorem envelope_five_nullable_struct_fields (s : Schema) (pc : List String) :
    ((delta_log_schema_for_table s pc).fields.map SchemaField.name) =
      ["metaData", "protocol", "txn", "add", "remove"] ∧
    ((delta_log_schema_for_table s pc).fields.all
      (fun f => f.nullable && f.metadata.isEmpty && (structFields f.type).isSome)) = true := by
  constructor
  · simp [delta_log_schema_for_table, common_fields]
  · rfl

/-- C3 counterexample: an object whose `type` tag says `array` but whose keys
are those of a struct decodes successfully (as a struct variant carrying the
verbatim tag `array`), where the claim requires decoding to fail. -/
theorem mismatched_tag_decodes_as_struct :
    decodeType (Json.obj [("type", Json.str "array"), ("fields", Json.arr [])]) =
      some (.struct (.mk "array" [])) := by
  simp [decodeType, decodeStructVariant, jlookup, decodeFieldList]

/-- C3 amended: when decoding from a JSON object, the first variant (in
declaration order) whose required keys are all present with decodable values
is selected; the `type` string is stored verbatim and never compared against
the structural shape, so a mismatching tag never causes an error.  In
particular the struct variant wins for any tag even when the array variant's
keys are also present. -/
theorem untagged_first_variant_wins (t : String) (fs : List SchemaField) :
    decodeType (Json.obj [("type", Json.str t), ("fields", Json.arr (encodeFields fs)),
      ("elementType", Json.str "string"), ("containsNull", Json.bool true)]) =
      some (.struct (.mk t fs)) := by
  simp [decodeType, decodeStructVariant, jlookup, decodeFieldList_encodeFields]

/-- C4: when the partition subset is non-empty, the field list under
`add.partitionValues_parsed` is, in order, exactly the subsequence of the
table's fields whose names occur in `partition_columns` (case-sensitive); a
partition-column name absent from the table schema contributes nothing. -/
theorem partition_values_parsed_embedding (s : Schema) (pc : List String)
    (h : partitionSubset s pc ≠ []) :
    (recordFields (delta_log_schema_for_table s pc) "add").bind
      (fun fs => (findField fs "partitionValues_parsed").bind
        (fun f => structFields f.type)) = some (partitionSubset s pc) := by
  have hb : (partitionSubset s pc).isEmpty = false := by simpa using h
  rw [recordFields_add, hb]
  cases hn : (nonPartitionSubset s pc).isEmpty <;>
    simp [findField, structFields, add_fields, pvParsedField, statsParsedField]

/-- C4 witness: the repository test's schema with partition column `pcol`. -/
theorem partition_values_parsed_embedding_witness :
    partitionSubset testSchema ["pcol"] ≠ [] ∧
    (recordFields (delta_log_schema_for_table testSchema ["pcol"]) "add").bind
      (fun fs => (findField fs "partitionValues_parsed").bind
        (fun f => structFields f.type)) = some (partitionSubset testSchema ["pcol"]) :=
  ⟨by simp [partitionSubset, testSchema],
   partition_values_parsed_embedding testSchema ["pcol"]
     (by simp [partitionSubset, testSchema])⟩

/-- C5: when the non-partition subset `N` is non-empty, `add.stats_parsed` is
a struct with exactly the three fields `minValues`, `maxValues`,
`nullCounts`, in that order, each a nullable struct with empty metadata whose
field list equals `N`. -/
theorem stats_parsed_embedding (s : Schema) (pc : List String)
    (h : nonPartitionSubset s pc ≠ []) :
    (recordFields (delta_log_schema_for_table s pc) "add").bind
      (fun fs => (findField fs "stats_parsed").bind
        (fun f => structFields f.type)) =
      some [.mk "minValues" (.struct (.mk "struct" (nonPartitionSubset s pc))) true [],
            .mk "maxValues" (.struct (.mk "struct" (nonPartitionSubset s pc))) true [],
            .mk "nullCounts" (.struct (.mk "struct" (nonPartitionSubset s pc))) true []] := by
  have hb : (nonPartitionSubset s pc).isEmpty = false := by simpa using h
  rw [recordFields_add, hb]
  cases hp : (partitionSubset s pc).isEmpty <;>
    simp [findField, structFields, add_fields, pvParsedField, statsParsedField]

/-- C5 witness: the repository test's schema, where `col1` is the single
non-partition column. -/
theorem stats_parsed_embedding_witness :
    nonPartitionSubset testSchema ["pcol"] ≠ [] ∧
    (recordFields (delta_log_schema_for_table testSchema ["pcol"]) "add").bind
      (fun fs => (findField fs "stats_parsed").bind
        (fun f => structFields f.type)) =
      some [.mk "minValues" (.struct (.mk "struct" (nonPartitionSubset testSchema ["pcol"]))) true [],
            .mk "maxValues" (.struct (.mk "struct" (nonPartitionSubset testSchema ["pcol"]))) true [],
            .mk "nullCounts" (.struct (.mk "struct" (nonPartitionSubset testSchema ["pcol"]))) true []] :=
  ⟨by simp [nonPartitionSubset, testSchema],
   stats_parsed_embedding testSchema ["pcol"]
     (by simp [nonPartitionSubset, testSchema])⟩

/-- C6: `partitionValues_parsed` is present in `add` exactly when the
partition subset is non-empty, `stats_parsed` exactly when the non-partition
subset is non-empty, and an empty table schema leaves `add` with only its
five template fields. -/
theorem parsed_fields_conditional_presence (s : Schema) (pc : List String) :
    (((recordFields (delta_log_schema_for_table s pc) "add").bind
        (fun fs => findField fs "partitionValues_parsed")).isSome
      = !(partitionSubset s pc).isEmpty) ∧
    (((recordFields (delta_log_schema_for_table s pc) "add").bind
        (fun fs => findField fs "stats_parsed")).isSome
      = !(nonPartitionSubset s pc).isEmpty) ∧
    (∀ ty : String, recordFields (delta_log_schema_for_table (Schema.mk ty []) pc) "add"
      = some add_fields) := by
  refine ⟨?_, ?_, fun ty => rfl⟩ <;>
    · rw [recordFields_add]
      cases hp : (partitionSubset s pc).isEmpty <;>
        cases hn : (nonPartitionSubset s pc).isEmpty <;>
          simp [findField, add_fields, pvParsedField, statsParsedField]

/-- C7: `delta_log_schema_for_table` returns `Ok` on every input; it has no
error path and performs no validation of `partition_columns` against the
table schema. -/
theorem delta_log_schema_never_fails (s : Schema) (pc : List String) :
    delta_log_schema_for_table_result s pc =
      Except.ok (delta_log_schema_for_table s pc) := rfl

/-- C8: the factory is deterministic: equal inputs give structurally equal
outputs, and within each struct of the output the field order is a function
of the input (template order, table order for the partition and
non-partition subsequences, and the fixed order `minValues`, `maxValues`,
`nullCounts` for the statistics substructs). -/
theorem build_deterministic_field_order (s₁ s₂ : Schema) (pc₁ pc₂ : List String)
    (hs : s₁ = s₂) (hp : pc₁ = pc₂) :
    delta_log_schema_for_table s₁ pc₁ = delta_log_schema_for_table s₂ pc₂ ∧
    ((delta_log_schema_for_table s₁ pc₁).fields.map SchemaField.name =
      ["metaData", "protocol", "txn", "add", "remove"]) ∧
    recordFields (delta_log_schema_for_table s₁ pc₁) "add" =
      some (add_fields
        ++ (if (partitionSubset s₁ pc₁).isEmpty then [] else [pvParsedField s₁ pc₁])
        ++ (if (nonPartitionSubset s₁ pc₁).isEmpty then [] else [statsParsedField s₁ pc₁])) ∧
    structFields (statsParsedField s₁ pc₁).type =
      some [.mk "minValues" (.struct (.mk "struct" (nonPartitionSubset s₁ pc₁))) true [],
            .mk "maxValues" (.struct (.mk "struct" (nonPartitionSubset s₁ pc₁))) true [],
            .mk "nullCounts" (.struct (.mk "struct" (nonPartitionSubset s₁ pc₁))) true []] := by
  subst hs; subst hp
  refine ⟨rfl, ?_, recordFields_add s₁ pc₁, rfl⟩
  simp [delta_log_schema_for_table, common_fields]

/-- C8 witness: the determinism and ordering statement applied to the
repository test's inputs. -/
theorem build_deterministic_field_order_witness :
    testSchema = testSchema ∧ (["pcol"] : List String) = ["pcol"] ∧
    (delta_log_schema_for_table testSchema ["pcol"] =
        delta_log_schema_for_table testSchema ["pcol"] ∧
    ((delta_log_schema_for_table testSchema ["pcol"]).fields.map SchemaField.name =
      ["metaData", "protocol", "txn", "add", "remove"]) ∧
    recordFields (delta_log_schema_for_table testSchema ["pcol"]) "add" =
      some (add_fields
        ++ (if (partitionSubset testSchema ["pcol"]).isEmpty then []
            else [pvParsedField testSchema ["pcol"]])
        ++ (if (nonPartitionSubset testSchema ["pcol"]).isEmpty then []
            else [statsParsedField testSchema ["pcol"]])) ∧
    structFields (statsParsedField testSchema ["pcol"]).type =
      some [.mk "minValues" (.struct (.mk "struct" (nonPartitionSubset testSchema ["pcol"]))) true [],
            .mk "maxValues" (.struct (.mk "struct" (nonPartitionSubset testSchema ["pcol"]))) true [],
            .mk "nullCounts" (.struct (.mk "struct" (nonPartitionSubset testSchema ["pcol"]))) true []]) :=
  ⟨rfl, rfl, build_deterministic_field_order testSchema testSchema ["pcol"] ["pcol"] rfl rfl⟩

/-- C9: the four action records other than `add` carry their template field
lists unchanged for every input; `remove` has the same five fields as the
`add` template (`path`, `size`, `modificationTime`, `dataChange`, `stats`),
and every templated field is nullable with empty metadata. -/
theorem non_add_records_unchanged (s : Schema) (pc : List String) :
    recordFields (delta_log_schema_for_table s pc) "metaData" = some meta_data_fields ∧
    recordFields (delta_log_schema_for_table s pc) "protocol" = some protocol_fields ∧
    recordFields (delta_log_schema_for_table s pc) "txn" = some txn_fields ∧
    recordFields (delta_log_schema_for_table s pc) "remove" = some remove_fields ∧
    remove_fields = add_fields ∧
    remove_fields.map SchemaField.name =
      ["path", "size", "modificationTime", "dataChange", "stats"] ∧
    ((meta_data_fields ++ protocol_fields ++ txn_fields ++ add_fields ++ remove_fields).all
      (fun f => f.nullable && f.metadata.isEmpty)) = true :=
  ⟨rfl, rfl, rfl, rfl, rfl, rfl, rfl⟩

/-- C10: the output depends on `partition_columns` only through membership of
each table field's name, so permutations and duplications of the
partition-column list leave the output unchanged. -/
theorem partition_columns_membership_only (s : Schema) (pc₁ pc₂ : List String)
    (h : ∀ f ∈ s.fields, pc₁.contains f.name = pc₂.contains f.name) :
    delta_log_schema_for_table s pc₁ = delta_log_schema_for_table s pc₂ := by
  have h1 : s.fields.filter (fun f => pc₁.contains f.name)
      = s.fields.filter (fun f => pc₂.contains f.name) :=
    List.filter_congr (fun x hx => h x hx)
  have h2 : s.fields.filter (fun f => !pc₁.contains f.name)
      = s.fields.filter (fun f => !pc₂.contains f.name) :=
    List.filter_congr (fun x hx => by rw [h x hx])
  simp only [delta_log_schema_for_table, List.partition_eq_filter_filter,
             Function.comp_def, h1, h2]

/-- C10 witness: a duplicated and permuted partition-column list (with a name
absent from the schema) gives the same output as its de-duplicated
permutation. -/
theorem partition_columns_membership_only_witness :
    (∀ f ∈ testSchema.fields,
      (["pcol", "pcol", "zzz"] : List String).contains f.name =
        (["zzz", "pcol"] : List String).contains f.name) ∧
    delta_log_schema_for_table testSchema ["pcol", "pcol", "zzz"] =
      delta_log_schema_for_table testSchema ["zzz", "pcol"] :=
  ⟨by decide,
   partition_columns_membership_only testSchema ["pcol", "pcol", "zzz"] ["zzz", "pcol"]
     (by decide)⟩

end DeltaRs
